import Mathlib

/-!
Shallow embedding of `diffrax/step_size_controller/adaptive.py`.

Machine floats are modelled as exact rationals (`ℚ`).  Operations of the
float type that have no exact rational counterpart are passed in as explicit
function parameters, so every theorem below quantifies over them:

* `sq`     models `jnp.sqrt`;
* `rpow1n` models `x ** (1 / order)` (the float power used for the
  step-size exponent);
* `nextafter` / `nextbefore` model the library helpers from `..misc`
  returning the next representable float above, respectively below, a value;
* `func` models `solver.func_for_init`, the derivative evaluation of the
  external solver collaborator.

Structured pytree state is modelled already flattened, as `List ℚ`; the
`unravel_y` collaborator is then the identity and is omitted.  Code raising
a Python exception is modelled in `Except String`.
-/

/-- `jnp.searchsorted(ts, t)` with the default side `left`: for the
ascending sequences that `step_ts` / `jump_ts` are required to be, the
insertion index equals the number of elements strictly below `t`. -/
def searchsorted (ts : List ℚ) (t : ℚ) : ℕ :=
  ts.countP (fun x => decide (x < t))

/-- `jnp.clip(x, a_min, a_max)`: maximum with the lower bound, then minimum
with the upper bound. -/
def jclip (x lo hi : ℚ) : ℚ :=
  min (max x lo) hi

/-- Element read `l[i]` under jit: jax clamps an out-of-range index into the
valid range (and we return `0` on an empty array, a case the source never
exercises with a well-formed configuration). -/
def gget (l : List ℚ) (i : ℕ) : ℚ :=
  l.getD (min i (l.length - 1)) 0

/-- `_rms_norm`: flatten (inputs arrive flat here), return `0` for an empty
vector, otherwise the double-`where` select of `0` when `mean(x^2) == 0` and
`sqrt(mean(x^2))` otherwise.  `sq` models `jnp.sqrt`. -/
def _rms_norm (sq : ℚ → ℚ) (x : List ℚ) : ℚ :=
  if x.length = 0 then 0
  else
    let sqnorm := (x.map (fun v => v ^ 2)).sum / (x.length : ℚ)
    if sqnorm = 0 then 0 else sq sqnorm

/-- `_select_initial_step`, the Hairer–Norsett–Wanner empirical heuristic.
`rpow1n q order` models `q ** (1 / order)`; `func` models
`solver.func_for_init`; `norm` is the configured norm. -/
def _select_initial_step (rtol atol : ℚ) (norm : List ℚ → ℚ)
    (rpow1n : ℚ → ℕ → ℚ) (func : ℚ → List ℚ → List ℚ)
    (order : ℕ) (t0 : ℚ) (y0 : List ℚ) : ℚ :=
  let f0 := func t0 y0
  let scale := y0.map (fun y => atol + |y| * rtol)
  let d0 := norm (List.zipWith (fun a s => a / s) y0 scale)
  let d1 := norm (List.zipWith (fun a s => a / s) f0 scale)
  let _cond := decide (d0 < 1 / 100000) || decide (d1 < 1 / 100000)
  let _d1 := if _cond then 1 else d1
  let h0 := if _cond then 1 / 1000000 else (1 / 100) * (d0 / _d1)
  let t1 := t0 + h0
  let y1 := List.zipWith (fun y f => y + h0 * f) y0 f0
  let f1 := func t1 y1
  let d2 := norm (List.zipWith (fun a s => a / s) (List.zipWith (fun a b => a - b) f1 f0) scale) / h0
  let h1 :=
    if decide (d1 ≤ 1 / 1000000000000000) || decide (d2 ≤ 1 / 1000000000000000) then
      max (1 / 1000000) (h0 * (1 / 1000))
    else
      rpow1n ((1 / 100) * max d1 d2) order
  min (100 * h0) h1

/-- `_scale_error_estimate`: elementwise
`y_error / (atol + max(y0, y1_candidate) * rtol)`, then the configured norm
(the `unravel_y` collaborator is the identity in the flat model). -/
def _scale_error_estimate (rtol atol : ℚ) (norm : List ℚ → ℚ)
    (y_error y0 y1c : List ℚ) : ℚ :=
  norm (List.zipWith (fun e s => e / s)
    y_error (List.zipWith (fun a b => atol + max a b * rtol) y0 y1c))

/-- Modelled from the spec: the externally defined result-code enumeration
(`..solution.RESULTS` is not part of the sources under review); this
component only ever produces `successful` or `dt_min_reached`. -/
inductive RESULTS where
  | successful
  | dt_min_reached
deriving DecidableEq

/-- The `IController` configuration, with the source's defaults.  The
`unravel_y` and `direction` fields bound by `wrap` are the identity,
respectively `+1`, in this flat forward-time model and are omitted. -/
structure IController where
  rtol : ℚ := 1 / 1000
  atol : ℚ := 1 / 1000000
  safety : ℚ := 9 / 10
  ifactor : ℚ := 10
  dfactor : ℚ := 1 / 5
  norm : List ℚ → ℚ
  dtmin : Option ℚ := none
  dtmax : Option ℚ := none
  force_dtmin : Bool := true
  unvmap_dt : Bool := false
  step_ts : Option (List ℚ) := none
  jump_ts : Option (List ℚ) := none

/-- `IController._clip_step_ts`: with no `step_ts` return `t1` unchanged;
with `unvmap_dt` raise `NotImplementedError`; otherwise clamp `t1` to
`step_ts[min(t0_index, len(step_ts) - 1)]` whenever
`searchsorted(step_ts, t0) < searchsorted(step_ts, t1)`. -/
def _clip_step_ts (self : IController) (t0 t1 : ℚ) : Except String ℚ :=
  match self.step_ts with
  | none => .ok t1
  | some sts =>
    if self.unvmap_dt then
      .error "The interaction between step_ts and unvmap_dt has not been implemented. Set unvmap_dt=False instead."
    else
      let t0_index := searchsorted sts t0
      let t1_index := searchsorted sts t1
      .ok (if t0_index < t1_index then gget sts (min t0_index (sts.length - 1)) else t1)

/-- `IController._clip_jump_ts`: with no `jump_ts` return `(t1, False)`;
with `unvmap_dt` raise `NotImplementedError`.  The dtype guards on
`jump_ts` and `t1` always pass in this model (rationals stand for floats).
The source then calls `jnp.searchsorted(self.step_ts, ...)` — `step_ts`,
not `jump_ts` — which raises a `TypeError` when `step_ts` is `None`, and
otherwise searches the wrong sequence; the index into `jump_ts` is the one
derived from `step_ts` (clamped by jax gather once out of range). -/
def _clip_jump_ts (self : IController) (nextbefore : ℚ → ℚ)
    (t0 t1 : ℚ) : Except String (ℚ × Bool) :=
  match self.jump_ts with
  | none => .ok (t1, false)
  | some jts =>
    if self.unvmap_dt then
      .error "The interaction between jump_ts and unvmap_dt has not been implemented. Set unvmap_dt=False instead."
    else
      match self.step_ts with
      | none => .error "TypeError: jnp.searchsorted applied to step_ts = None"
      | some sts =>
        let t0_index := searchsorted sts t0
        let t1_index := searchsorted sts t1
        let cond := t0_index < t1_index
        .ok (if cond then nextbefore (gget jts (min t0_index (sts.length - 1))) else t1,
             if cond then true else false)

/-- `IController._scale_factor`:
`clip(safety / scaled_error ** (1 / order), a_min, a_max)` with
`a_min = 1` on a kept step and `dfactor` on a rejected one, and
`a_max = ifactor`. -/
def _scale_factor (self : IController) (rpow1n : ℚ → ℕ → ℚ)
    (order : ℕ) (keep_step : Bool) (scaled_error : ℚ) : ℚ :=
  let dfactor := if keep_step then 1 else self.dfactor
  jclip (self.safety / rpow1n scaled_error order) dfactor self.ifactor

/-- The accept/reject decision of `adapt_step_size`:
`keep_step = scaled_error < 1`, or-ed with `at_dtmin` when `dtmin` is
configured (single-lane model, so the `unvmap` all-reduce is the
identity). -/
def adapt_keep_step (self : IController) (scaled_error : ℚ)
    (at_dtmin : Bool) : Bool :=
  let k := decide (scaled_error < 1)
  match self.dtmin with
  | none => k
  | some _ => k || at_dtmin

/-- The step-size multiplier of `adapt_step_size`: the `lax.cond` picks
`ifactor` when `scaled_error == 0`, and otherwise `_scale_factor` applied
to `_scaled_error`, which then equals `scaled_error` (the double-`where`
guard).  `stop_gradient` is the identity on values. -/
def adapt_factor (self : IController) (rpow1n : ℚ → ℕ → ℚ)
    (order : ℕ) (keep_step : Bool) (scaled_error : ℚ) : ℚ :=
  if scaled_error = 0 then self.ifactor
  else _scale_factor self rpow1n order keep_step scaled_error

/-- The `dtmax` clip of the updated step size. -/
def dt_after_dtmax (self : IController) (dt : ℚ) : ℚ :=
  match self.dtmax with
  | none => dt
  | some m => min dt m

/-- The result code of `adapt_step_size`, computed from the `dtmax`-clipped
but not yet `dtmin`-floored step size. -/
def adapt_result (self : IController) (dt : ℚ) : RESULTS :=
  match self.dtmin with
  | none => .successful
  | some m =>
    if self.force_dtmin then .successful
    else if dt < m then .dt_min_reached else .successful

/-- The outgoing `at_dtmin` flag of `adapt_step_size` (and of `init`):
`False` when `dtmin` is not configured, else `dt <= dtmin` on the
unfloored step size. -/
def adapt_at_dtmin (self : IController) (dt : ℚ) : Bool :=
  match self.dtmin with
  | none => false
  | some m => decide (dt ≤ m)

/-- The `dtmin` floor of the step size. -/
def dt_after_dtmin (self : IController) (dt : ℚ) : ℚ :=
  match self.dtmin with
  | none => dt
  | some m => max dt m

/-- The values computed by `adapt_step_size` before the two grid clips:
the accept/reject flag, the `dtmax`-clipped step size `dt2`, the floored
step size `dt`, the next starting point, the outgoing `at_dtmin` flag and
the result code. -/
structure AdaptCore where
  keep_step : Bool
  dt2 : ℚ
  dt : ℚ
  next_t0 : ℚ
  at_dtmin : Bool
  result : RESULTS

/-- Lines 208–270 of `adapt_step_size`: error scaling, accept/reject,
multiplier, `dtmax`/`dtmin` clipping and the next starting point.  The
time dtype is inexact in this model, so `_t1` always takes the
`nextafter` branch of the dtype test when `made_jump` holds. -/
def adaptCore (self : IController) (rpow1n : ℚ → ℕ → ℚ)
    (nextafter : ℚ → ℚ) (t0 t1 : ℚ) (y0 y1c y_error : List ℚ)
    (solver_order : ℕ) (made_jump at_dtmin : Bool) : AdaptCore :=
  let prev_dt := t1 - t0
  let scaled_error := _scale_error_estimate self.rtol self.atol self.norm y_error y0 y1c
  let keep_step := adapt_keep_step self scaled_error at_dtmin
  let factor := adapt_factor self rpow1n solver_order keep_step scaled_error
  let dt2 := dt_after_dtmax self (prev_dt * factor)
  let result := adapt_result self dt2
  let at_dtmin2 := adapt_at_dtmin self dt2
  let dt := dt_after_dtmin self dt2
  let _t1 := if made_jump then nextafter t1 else t1
  let next_t0 := if keep_step then _t1 else t0
  ⟨keep_step, dt2, dt, next_t0, at_dtmin2, result⟩

/-- The tuple returned by `adapt_step_size`. -/
structure AdaptOutput where
  keep_step : Bool
  next_t0 : ℚ
  next_t1 : ℚ
  made_jump : Bool
  controller_state : Bool × Bool
  result : RESULTS

/-- `IController.adapt_step_size`: raise when `y_error` is absent,
otherwise run the core computation and the two grid clips and return
`(keep_step, next_t0, next_t1, made_jump, (next_made_jump, at_dtmin),
result)`. -/
def adapt_step_size (self : IController) (rpow1n : ℚ → ℕ → ℚ)
    (nextafter nextbefore : ℚ → ℚ) (t0 t1 : ℚ) (y0 y1c : List ℚ)
    (y_error : Option (List ℚ)) (solver_order : ℕ)
    (controller_state : Bool × Bool) : Except String AdaptOutput :=
  match y_error with
  | none => .error "Cannot use adaptive step sizes with a solver that does not provide error estimates."
  | some y_err =>
    let made_jump := controller_state.1
    let at_dtmin := controller_state.2
    let c := adaptCore self rpow1n nextafter t0 t1 y0 y1c y_err solver_order made_jump at_dtmin
    match _clip_step_ts self c.next_t0 (c.next_t0 + c.dt) with
    | .error e => .error e
    | .ok next_t1 =>
      match _clip_jump_ts self nextbefore c.next_t0 next_t1 with
      | .error e => .error e
      | .ok (next_t1', next_made_jump) =>
        .ok ⟨c.keep_step, c.next_t0, next_t1', made_jump, (next_made_jump, c.at_dtmin), c.result⟩

/-- `IController.init`: choose `dt0` (the initial-step heuristic when not
supplied; `stop_gradient` is the identity on values), clip to `dtmax`,
compute `at_dtmin` and floor to `dtmin`, then apply the two grid clips to
`t0 + dt0`. -/
def init (self : IController) (rpow1n : ℚ → ℕ → ℚ) (nextbefore : ℚ → ℚ)
    (func : ℚ → List ℚ → List ℚ) (solver_order : ℕ)
    (t0 : ℚ) (y0 : List ℚ) (dt0 : Option ℚ) :
    Except String (ℚ × (Bool × Bool)) :=
  let d0 :=
    match dt0 with
    | none => _select_initial_step self.rtol self.atol self.norm rpow1n func solver_order t0 y0
    | some d => d
  let d1 :=
    match self.dtmax with
    | none => d0
    | some m => min d0 m
  let at_dtmin :=
    match self.dtmin with
    | none => false
    | some m => decide (d1 ≤ m)
  let d2 :=
    match self.dtmin with
    | none => d1
    | some m => max d1 m
  match _clip_step_ts self t0 (t0 + d2) with
  | .error e => .error e
  | .ok t1 =>
    match _clip_jump_ts self nextbefore t0 t1 with
    | .error e => .error e
    | .ok (t1', jump_next_step) => .ok (t1', (jump_next_step, at_dtmin))

/-!  Helper lemmas shared by several claims.  -/

theorem sum_sq_nonneg (l : List ℚ) : 0 ≤ (l.map (fun v => v ^ 2)).sum := by
  induction l with
  | nil => simp
  | cons a t ih =>
    simp only [List.map_cons, List.sum_cons]
    exact add_nonneg (sq_nonneg a) ih

theorem sum_sq_eq_zero_iff (l : List ℚ) :
    (l.map (fun v => v ^ 2)).sum = 0 ↔ ∀ v ∈ l, v = 0 := by
  induction l with
  | nil => simp
  | cons a t ih =>
    simp only [List.map_cons, List.sum_cons, List.mem_cons]
    constructor
    · intro h
      have h2 := (add_eq_zero_iff_of_nonneg (sq_nonneg a) (sum_sq_nonneg t)).mp h
      have ha : a = 0 := by
        have := h2.1
        exact (pow_eq_zero_iff two_ne_zero).mp this
      intro v hv
      rcases hv with hv | hv
      · exact hv ▸ ha
      · exact (ih.mp h2.2) v hv
    · intro h
      have ha : a = 0 := h a (Or.inl rfl)
      have ht : (t.map (fun v => v ^ 2)).sum = 0 := ih.mpr fun v hv => h v (Or.inr hv)
      simp [ha, ht]

/-- C8: the error norm returns exactly `0` for the empty vector and for
every all-zero vector; on any other input it returns
`sqrt(mean(x^2))`; and the result is always non-negative (hence finite in
this exact model), with no degenerate square root taken in the all-zero
case. -/
theorem rms_norm_spec (sq : ℚ → ℚ) (x : List ℚ)
    (hsq : ∀ q, 0 ≤ q → 0 ≤ sq q) :
    _rms_norm sq [] = 0 ∧
    ((∀ v ∈ x, v = 0) → _rms_norm sq x = 0) ∧
    (x ≠ [] → ¬(∀ v ∈ x, v = 0) →
      _rms_norm sq x = sq ((x.map (fun v => v ^ 2)).sum / (x.length : ℚ))) ∧
    0 ≤ _rms_norm sq x := by
  refine ⟨by simp [_rms_norm], ?_, ?_, ?_⟩
  · intro h
    by_cases hx : x.length = 0
    · simp [_rms_norm, hx]
    · have hs : (x.map (fun v => v ^ 2)).sum = 0 := (sum_sq_eq_zero_iff x).mpr h
      simp [_rms_norm, hx, hs]
  · intro hne hnz
    have hlen : x.length ≠ 0 := fun h => hne (List.length_eq_zero.mp h)
    have hs : (x.map (fun v => v ^ 2)).sum ≠ 0 := fun h =>
      hnz ((sum_sq_eq_zero_iff x).mp h)
    have hq : (x.map (fun v => v ^ 2)).sum / (x.length : ℚ) ≠ 0 :=
      div_ne_zero hs (Nat.cast_ne_zero.mpr hlen)
    simp [_rms_norm, hlen, hq]
  · unfold _rms_norm
    by_cases hx : x.length = 0
    · simp [hx]
    · simp only [hx, if_false]
      by_cases hq : (x.map (fun v => v ^ 2)).sum / (x.length : ℚ) = 0
      · simp [hq]
      · simp only [hq, if_false]
        exact hsq _ (div_nonneg (sum_sq_nonneg x) (Nat.cast_nonneg _))

/-- C8 witness: instantiation at `sq = id`, `x = [1, 2]`. -/
theorem rms_norm_spec_witness : 0 ≤ _rms_norm id [1, 2] :=
  (rms_norm_spec id [1, 2] (fun _ h => h)).2.2.2

/-- C3: the step-size multiplier equals `ifactor` exactly when the scaled
error is `0`, and otherwise equals
`clip(safety / scaled_error ** (1 / order), low, ifactor)` with `low = 1`
on a kept step and `low = dfactor` on a rejected one; consequently, for
`scaled_error ≥ 1` and incoming `at_dtmin = false` the factor lies in
`[dfactor, 1]`. -/
theorem adapt_factor_spec (self : IController) (rpow1n : ℚ → ℕ → ℚ)
    (order : ℕ) (se : ℚ)
    (hs0 : 0 ≤ self.safety) (hs1 : self.safety ≤ 1)
    (hd1 : self.dfactor ≤ 1) (hdi : self.dfactor ≤ self.ifactor)
    (hroot : 1 ≤ se → 1 ≤ rpow1n se order) :
    (∀ k, adapt_factor self rpow1n order k 0 = self.ifactor) ∧
    (se ≠ 0 → ∀ k, adapt_factor self rpow1n order k se =
      jclip (self.safety / rpow1n se order)
        (if k then 1 else self.dfactor) self.ifactor) ∧
    (1 ≤ se →
      self.dfactor ≤ adapt_factor self rpow1n order (adapt_keep_step self se false) se ∧
      adapt_factor self rpow1n order (adapt_keep_step self se false) se ≤ 1) := by
  refine ⟨fun k => by simp [adapt_factor],
          fun h k => by simp [adapt_factor, _scale_factor, h],
          fun h1 => ?_⟩
  have hne : se ≠ 0 := by
    intro h; rw [h] at h1; exact absurd h1 (by norm_num)
  have hks : adapt_keep_step self se false = false := by
    unfold adapt_keep_step
    have hd : decide (se < 1) = false := decide_eq_false (not_lt.mpr h1)
    cases self.dtmin <;> simp [hd]
  rw [hks]
  have hr := hroot h1
  have hdiv : self.safety / rpow1n se order ≤ self.safety :=
    div_le_self hs0 hr
  simp only [adapt_factor, if_neg hne, _scale_factor, Bool.false_eq_true,
    if_false, jclip]
  constructor
  · exact le_min (le_max_right _ _) hdi
  · exact le_trans (min_le_left _ _) (max_le (le_trans hdiv hs1) hd1)

/-- C3 witness: the default configuration, `order = 1` (so the power is
the identity), scaled error `4`. -/
theorem adapt_factor_spec_witness :
    (∀ k, adapt_factor { norm := _rms_norm id } (fun q _ => q) 1 k 0 =
      IController.ifactor { norm := _rms_norm id }) ∧
    ((4:ℚ) ≠ 0 → ∀ k, adapt_factor { norm := _rms_norm id } (fun q _ => q) 1 k 4 =
      jclip (IController.safety { norm := _rms_norm id } / 4)
        (if k then 1 else IController.dfactor { norm := _rms_norm id })
        (IController.ifactor { norm := _rms_norm id })) ∧
    ((1:ℚ) ≤ 4 →
      IController.dfactor { norm := _rms_norm id } ≤
        adapt_factor { norm := _rms_norm id } (fun q _ => q) 1
          (adapt_keep_step { norm := _rms_norm id } 4 false) 4 ∧
      adapt_factor { norm := _rms_norm id } (fun q _ => q) 1
          (adapt_keep_step { norm := _rms_norm id } 4 false) 4 ≤ 1) :=
  adapt_factor_spec { norm := _rms_norm id } (fun q _ => q) 1 4
    (by norm_num) (by norm_num) (by norm_num) (by norm_num) (fun h => h)

/-- C4: the accept/reject flag computed by `adapt_step_size` is true
exactly when the scaled error is below `1`, or when `dtmin` is configured
and the incoming `at_dtmin` flag is set. -/
theorem adapt_keep_step_iff (self : IController) (rpow1n : ℚ → ℕ → ℚ)
    (na : ℚ → ℚ) (t0 t1 : ℚ) (y0 y1c y_err : List ℚ) (order : ℕ)
    (mj admin : Bool) :
    ((adaptCore self rpow1n na t0 t1 y0 y1c y_err order mj admin).keep_step = true ↔
      (_scale_error_estimate self.rtol self.atol self.norm y_err y0 y1c < 1 ∨
        (self.dtmin ≠ none ∧ admin = true))) := by
  have hk : (adaptCore self rpow1n na t0 t1 y0 y1c y_err order mj admin).keep_step =
      adapt_keep_step self
        (_scale_error_estimate self.rtol self.atol self.norm y_err y0 y1c) admin := rfl
  rw [hk]
  unfold adapt_keep_step
  cases h : self.dtmin <;> simp [h, decide_eq_true_eq]

/-- A configuration with a single discontinuity time `3.0` and the step
grid `[1.0]`, as used to exhibit the jump-clip defect. -/
def jumpCfg : IController :=
  { norm := _rms_norm id, step_ts := some [1], jump_ts := some [3] }

/-- C1: refuted on the code.  The discontinuity time `3` lies strictly
inside `(2, 4]`, yet `_clip_jump_ts` leaves `t1 = 4` unclamped and returns
a lowered jump flag, because its ordered search runs over `step_ts`
(here `[1]`), not over `jump_ts`. -/
theorem clip_jump_ts_consults_step_ts_bug :
    (2:ℚ) < 3 ∧ (3:ℚ) ≤ 4 ∧
    _clip_jump_ts jumpCfg (fun t => t - 1) 2 4 = .ok (4, false) := by
  refine ⟨by norm_num, by norm_num, ?_⟩
  norm_num [_clip_jump_ts, jumpCfg, searchsorted]

/-- The step grid `[1.0, 2.0, 5.0]` of the step-clip example. -/
def stepCfg : IController :=
  { norm := _rms_norm id, step_ts := some [1, 2, 5] }

/-- C2: refuted on the code.  The first example holds
(`t0 = 0.5, t1 = 3` clamps to `1`), but an interval starting exactly at
the grid point `1` and proposing `3.5` clamps to `1 = t0` — a zero-width
interval — rather than to `2`, the first mandatory time strictly inside
`(1, 3.5]`: the left-sided search counts a grid point equal to `t0` as
lying inside the interval. -/
theorem clip_step_ts_clamps_to_current_time_bug :
    _clip_step_ts stepCfg (1/2) 3 = .ok 1 ∧
    ((1:ℚ) < 2 ∧ (2:ℚ) ≤ 7/2) ∧
    _clip_step_ts stepCfg 1 (7/2) = .ok 1 := by
  refine ⟨?_, ⟨by norm_num, by norm_num⟩, ?_⟩ <;>
    norm_num [_clip_step_ts, stepCfg, searchsorted, gget]

/-- A configuration with `jump_ts = [3.0]` and no `step_ts` (their
defaults), used to exhibit the raise with `y_error` present. -/
def cfg6 : IController :=
  { norm := _rms_norm id, jump_ts := some [3] }

/-- C6: the "if" direction holds — a missing `y_error` raises — but the
"only if" direction is refuted: with `y_error` present and a well-typed
configuration (`jump_ts = [3.0]`, `step_ts` unset), `adapt_step_size`
still raises, because `_clip_jump_ts` hands `step_ts = None` to
`jnp.searchsorted`. -/
theorem adapt_error_iff_bug :
    adapt_step_size cfg6 (fun q _ => q) id id 0 1 [] [] none 1 (false, false) =
      .error "Cannot use adaptive step sizes with a solver that does not provide error estimates." ∧
    adapt_step_size cfg6 (fun q _ => q) id id 0 1 [] [] (some []) 1 (false, false) =
      .error "TypeError: jnp.searchsorted applied to step_ts = None" := by
  exact ⟨rfl, rfl⟩

/-- A configuration with `dtmin = 1` and otherwise the defaults. -/
def dtminCfg : IController :=
  { norm := _rms_norm id, dtmin := some 1 }

/-- A configuration with all optional features at their defaults. -/
def plainCfg : IController :=
  { norm := _rms_norm id }

/-- C5: with `dtmin = d` configured, whenever the multiplier-updated and
`dtmax`-clipped step size `dt2` falls below `d`, the step size is floored
to exactly `d`, the returned controller state carries `at_dtmin = true`,
and the result is `successful` when `force_dtmin` holds and
`dt_min_reached` otherwise. -/
theorem adapt_dtmin_floor_spec (self : IController) (rpow1n : ℚ → ℕ → ℚ)
    (na nb : ℚ → ℚ) (t0 t1 : ℚ) (y0 y1c y_err : List ℚ) (order : ℕ)
    (mj admin : Bool) (d : ℚ) (out : AdaptOutput)
    (hdmin : self.dtmin = some d)
    (hlow : (adaptCore self rpow1n na t0 t1 y0 y1c y_err order mj admin).dt2 < d)
    (hout : adapt_step_size self rpow1n na nb t0 t1 y0 y1c (some y_err) order
      (mj, admin) = .ok out) :
    (adaptCore self rpow1n na t0 t1 y0 y1c y_err order mj admin).dt = d ∧
    out.controller_state.2 = true ∧
    out.result = (if self.force_dtmin then RESULTS.successful
                  else RESULTS.dt_min_reached) := by
  have hdt : (adaptCore self rpow1n na t0 t1 y0 y1c y_err order mj admin).dt =
      dt_after_dtmin self (adaptCore self rpow1n na t0 t1 y0 y1c y_err order mj admin).dt2 := rfl
  have hat : (adaptCore self rpow1n na t0 t1 y0 y1c y_err order mj admin).at_dtmin =
      adapt_at_dtmin self (adaptCore self rpow1n na t0 t1 y0 y1c y_err order mj admin).dt2 := rfl
  have hres : (adaptCore self rpow1n na t0 t1 y0 y1c y_err order mj admin).result =
      adapt_result self (adaptCore self rpow1n na t0 t1 y0 y1c y_err order mj admin).dt2 := rfl
  have h1 : (adaptCore self rpow1n na t0 t1 y0 y1c y_err order mj admin).dt = d := by
    rw [hdt]; simp only [dt_after_dtmin, hdmin]
    exact max_eq_right (le_of_lt hlow)
  have h2 : (adaptCore self rpow1n na t0 t1 y0 y1c y_err order mj admin).at_dtmin = true := by
    rw [hat]; simp only [adapt_at_dtmin, hdmin]
    exact decide_eq_true (le_of_lt hlow)
  have h3 : (adaptCore self rpow1n na t0 t1 y0 y1c y_err order mj admin).result =
      (if self.force_dtmin then RESULTS.successful else RESULTS.dt_min_reached) := by
    rw [hres]; simp only [adapt_result, hdmin]
    by_cases hf : self.force_dtmin <;> simp [hf, hlow]
  simp only [adapt_step_size] at hout
  split at hout
  · exact absurd hout (by simp)
  · split at hout
    · exact absurd hout (by simp)
    · obtain rfl := (Except.ok.inj hout).symm
      exact ⟨h1, h2, h3⟩

/-- C5 witness: `dtmin = 1`, a zero-length previous interval so that the
updated step size `0` lies below the floor. -/
theorem adapt_dtmin_floor_spec_witness :
    (adaptCore dtminCfg (fun q _ => q) id 0 0 [] [] [] 1 false false).dt = 1 ∧
    (AdaptOutput.mk true 0 1 false (false, true) RESULTS.successful).controller_state.2 = true ∧
    (AdaptOutput.mk true 0 1 false (false, true) RESULTS.successful).result =
      (if dtminCfg.force_dtmin then RESULTS.successful else RESULTS.dt_min_reached) :=
  adapt_dtmin_floor_spec dtminCfg (fun q _ => q) id id 0 0 [] [] [] 1 false false 1
    (AdaptOutput.mk true 0 1 false (false, true) RESULTS.successful)
    rfl (by norm_num [adaptCore, dtminCfg, dt_after_dtmax, adapt_factor,
      _scale_error_estimate, _rms_norm])
    (by norm_num [adapt_step_size, adaptCore, dtminCfg, dt_after_dtmax,
      dt_after_dtmin, adapt_result, adapt_at_dtmin, adapt_keep_step, adapt_factor,
      _scale_error_estimate, _rms_norm, _clip_step_ts, _clip_jump_ts])

/-- C7: the next starting point is the (possibly `nextafter`-advanced)
previous boundary on an accepted step and the unchanged origin `t0` on a
rejected one, and the returned `next_t1` is produced by the two grid clips
applied to `next_t0 + dt`. -/
theorem adapt_next_t0_spec (self : IController) (rpow1n : ℚ → ℕ → ℚ)
    (na nb : ℚ → ℚ) (t0 t1 : ℚ) (y0 y1c y_err : List ℚ) (order : ℕ)
    (mj admin : Bool) (out : AdaptOutput)
    (hout : adapt_step_size self rpow1n na nb t0 t1 y0 y1c (some y_err) order
      (mj, admin) = .ok out) :
    out.next_t0 =
      (if (adaptCore self rpow1n na t0 t1 y0 y1c y_err order mj admin).keep_step
       then (if mj then na t1 else t1) else t0) ∧
    ∃ m, _clip_step_ts self out.next_t0
        (out.next_t0 + (adaptCore self rpow1n na t0 t1 y0 y1c y_err order mj admin).dt) = .ok m ∧
      _clip_jump_ts self nb out.next_t0 m = .ok (out.next_t1, out.controller_state.1) := by
  simp only [adapt_step_size] at hout
  split at hout
  · exact absurd hout (by simp)
  · rename_i nt1 hclip1
    split at hout
    · exact absurd hout (by simp)
    · rename_i nt1' nmj hclip2
      obtain rfl := (Except.ok.inj hout).symm
      refine ⟨rfl, nt1, hclip1, hclip2⟩

/-- C7 witness: `made_jump = true`, `nextafter = (· + 1)`, no grids. -/
theorem adapt_next_t0_spec_witness :
    (AdaptOutput.mk true 2 12 true (false, false) RESULTS.successful).next_t0 =
      (if (adaptCore plainCfg (fun q _ => q) (fun t => t + 1) 0 1 [] [] [] 1 true false).keep_step
       then (if true then (fun t : ℚ => t + 1) 1 else 1) else 0) :=
  (adapt_next_t0_spec plainCfg (fun q _ => q) (fun t => t + 1) id 0 1 [] [] [] 1 true false
    (AdaptOutput.mk true 2 12 true (false, false) RESULTS.successful)
    (by norm_num [adapt_step_size, adaptCore, plainCfg, dt_after_dtmax,
      dt_after_dtmin, adapt_result, adapt_at_dtmin, adapt_keep_step, adapt_factor,
      _scale_error_estimate, _rms_norm, _clip_step_ts, _clip_jump_ts])).1

/-- C10: with `dtmin` unset, `init` and `adapt_step_size` both return a
controller state whose `at_dtmin` component is `False` — the incoming
value is overwritten — and the accept decision reduces to
`scaled_error < 1` alone, so the at-floor force-accept path can never
activate. -/
theorem at_dtmin_discarded_spec (self : IController) (rpow1n : ℚ → ℕ → ℚ)
    (nb nb2 na : ℚ → ℚ) (func : ℚ → List ℚ → List ℚ) (iorder : ℕ)
    (it0 : ℚ) (iy0 : List ℚ) (idt0 : Option ℚ) (it1 : ℚ) (ist : Bool × Bool)
    (t0 t1 : ℚ) (y0 y1c y_err : List ℚ) (order : ℕ) (mj admin : Bool)
    (out : AdaptOutput) (se : ℚ) (a : Bool)
    (hmin : self.dtmin = none)
    (hinit : init self rpow1n nb func iorder it0 iy0 idt0 = .ok (it1, ist))
    (hadapt : adapt_step_size self rpow1n na nb2 t0 t1 y0 y1c (some y_err) order
      (mj, admin) = .ok out) :
    ist.2 = false ∧ out.controller_state.2 = false ∧
    adapt_keep_step self se a = decide (se < 1) := by
  refine ⟨?_, ?_, ?_⟩
  · simp only [init, hmin] at hinit
    split at hinit
    · exact absurd hinit (by simp)
    · split at hinit
      · exact absurd hinit (by simp)
      · obtain h := (Except.ok.inj hinit)
        injection h with h1 h2
        rw [← h2]
  · have hat : (adaptCore self rpow1n na t0 t1 y0 y1c y_err order mj admin).at_dtmin =
        adapt_at_dtmin self (adaptCore self rpow1n na t0 t1 y0 y1c y_err order mj admin).dt2 := rfl
    simp only [adapt_step_size] at hadapt
    split at hadapt
    · exact absurd hadapt (by simp)
    · split at hadapt
      · exact absurd hadapt (by simp)
      · obtain rfl := (Except.ok.inj hadapt).symm
        simpa [adapt_at_dtmin, hmin] using hat
  · simp [adapt_keep_step, hmin]

/-- C10 witness: the default configuration (`dtmin` unset), `dt0 = 1`
supplied to `init`, and a trivial `adapt_step_size` call. -/
theorem at_dtmin_discarded_spec_witness :
    (false, false).2 = false ∧
    (AdaptOutput.mk true 1 11 false (false, false) RESULTS.successful).controller_state.2 = false ∧
    adapt_keep_step plainCfg 4 true = decide ((4:ℚ) < 1) :=
  at_dtmin_discarded_spec plainCfg (fun q _ => q) id id id (fun _ y => y) 1
    0 [] (some 1) 1 (false, false) 0 1 [] [] [] 1 false false
    (AdaptOutput.mk true 1 11 false (false, false) RESULTS.successful) 4 true
    rfl
    (by norm_num [init, plainCfg, _clip_step_ts, _clip_jump_ts])
    (by norm_num [adapt_step_size, adaptCore, plainCfg, dt_after_dtmax,
      dt_after_dtmin, adapt_result, adapt_at_dtmin, adapt_keep_step, adapt_factor,
      _scale_error_estimate, _rms_norm, _clip_step_ts, _clip_jump_ts])

/-- The initial-step formula exactly as the specification words it:
`h0 = 1e-6` if `d0 < 1e-5` or `d1 < 1e-5`, else `0.01 * d0 / d1`;
`h1 = max(1e-6, h0 * 1e-3)` if `d1 <= 1e-15` or `d2 <= 1e-15`, else
`(0.01 * max(d1, d2)) ** (1 / order)`; returning `min(100 * h0, h1)`. -/
def select_initial_step_formula (rtol atol : ℚ) (norm : List ℚ → ℚ)
    (rpow1n : ℚ → ℕ → ℚ) (func : ℚ → List ℚ → List ℚ)
    (order : ℕ) (t0 : ℚ) (y0 : List ℚ) : ℚ :=
  let f0 := func t0 y0
  let scale := y0.map (fun y => atol + |y| * rtol)
  let d0 := norm (List.zipWith (fun a s => a / s) y0 scale)
  let d1 := norm (List.zipWith (fun a s => a / s) f0 scale)
  let h0 := if d0 < 1 / 100000 ∨ d1 < 1 / 100000 then 1 / 1000000
            else (1 / 100) * (d0 / d1)
  let t1 := t0 + h0
  let y1 := List.zipWith (fun y f => y + h0 * f) y0 f0
  let f1 := func t1 y1
  let d2 := norm (List.zipWith (fun a s => a / s)
    (List.zipWith (fun a b => a - b) f1 f0) scale) / h0
  let h1 := if d1 ≤ 1 / 1000000000000000 ∨ d2 ≤ 1 / 1000000000000000 then
      max (1 / 1000000) (h0 * (1 / 1000))
    else rpow1n ((1 / 100) * max d1 d2) order
  min (100 * h0) h1

/-- C9: `_select_initial_step` computes exactly the
Hairer–Norsett–Wanner formula of the specification, and its value is
strictly positive (given that the modelled float power is positive on
positive arguments, as it is for every finite nonzero float result). -/
theorem select_initial_step_spec (rtol atol : ℚ) (norm : List ℚ → ℚ)
    (rpow1n : ℚ → ℕ → ℚ) (func : ℚ → List ℚ → List ℚ) (order : ℕ)
    (t0 : ℚ) (y0 : List ℚ)
    (hrpow : ∀ q, 0 < q → 0 < rpow1n q order) :
    _select_initial_step rtol atol norm rpow1n func order t0 y0 =
      select_initial_step_formula rtol atol norm rpow1n func order t0 y0 ∧
    0 < _select_initial_step rtol atol norm rpow1n func order t0 y0 := by
  have heq : _select_initial_step rtol atol norm rpow1n func order t0 y0 =
      select_initial_step_formula rtol atol norm rpow1n func order t0 y0 := by
    simp only [_select_initial_step, select_initial_step_formula,
      Bool.or_eq_true, decide_eq_true_eq]
    split_ifs <;> rfl
  refine ⟨heq, heq ▸ ?_⟩
  simp only [select_initial_step_formula]
  rw [lt_min_iff]
  constructor
  · split_ifs with hc
    · norm_num
    · push_neg at hc
      have hd0 : (0:ℚ) < norm (List.zipWith (fun a s => a / s) y0
          (y0.map (fun y => atol + |y| * rtol))) := by
        have := hc.1; linarith
      have hd1 : (0:ℚ) < norm (List.zipWith (fun a s => a / s) (func t0 y0)
          (y0.map (fun y => atol + |y| * rtol))) := by
        have := hc.2; linarith
      have := div_pos hd0 hd1
      nlinarith
  · split_ifs with hc hd hd
    · exact lt_max_iff.mpr (Or.inl (by norm_num))
    · push_neg at hd
      exact hrpow _ (mul_pos (by norm_num) (lt_max_iff.mpr (Or.inl (by linarith [hd.1]))))
    · exact lt_max_iff.mpr (Or.inl (by norm_num))
    · push_neg at hd
      exact hrpow _ (mul_pos (by norm_num) (lt_max_iff.mpr (Or.inl (by linarith [hd.1]))))

/-- C9 witness: `dy/dt = -y`, `y0 = 1`, default tolerances, the RMS norm,
`order = 1` (so the float power is the identity). -/
theorem select_initial_step_spec_witness :
    0 < _select_initial_step (1/1000) (1/1000000) (_rms_norm id) (fun q _ => q)
      (fun _ y => y.map (fun v => -v)) 1 0 [1] :=
  (select_initial_step_spec (1/1000) (1/1000000) (_rms_norm id) (fun q _ => q)
    (fun _ y => y.map (fun v => -v)) 1 0 [1] (fun _ h => h)).2
